import Mathlib

/-!
Verification development for the aiobuf repository.

The repository has two modules:

* `src/aiobuf/buffer.py`: `LogBuffer` (a message buffer with `flush`,
  `__call__` = append, and `close`, all serialized by `self._flush_lock`),
  `TimedLogBuffer` (adds a periodic `flush_loop`), and `MaxSizeLogBuffer`
  (adds a running UTF-8 byte-size counter `_size`, a `SizeExceeded` event,
  a size-or-timeout `flush_loop`, and its own `flush` that also resets the
  counter and the event).
* `src/aiobuf/format.py`: `format_message`, which decodes `bytes` input as
  UTF-8, splits the text on newlines, applies a per-line formatter, and
  rejoins with newlines.

Embedding conventions:

* The sink `self._fn` is not stored in the state; every operation returns,
  next to the new state, the list (or `Option`) of arguments of the sink
  calls it performed.  The sink is called synchronously inside the flush
  critical section, so this trace is exact.
* `self._formatter` and the `max_size` configuration are immutable
  attributes set at construction; they are passed as parameters.
* A raised `BufferClosedError` is modelled by the `closedErr` constructor,
  which carries the state of the object at the moment the exception
  propagates (the code mutates nothing before raising).
* The asyncio lock serializes `flush`/`__call__`/`close` bodies; operations
  are therefore modelled as atomic state transformers.  The one place where
  the code acts outside the lock (the emptiness pre-check of `flush`, and
  the `SizeExceeded.set()` after an append) is modelled separately where a
  claim is about that fine structure.
-/

/-- State of a `LogBuffer` instance: `self._buffer` (the pending messages,
in append order) and `self._open`. -/
structure LBState where
  _buffer : List String
  _open : Bool
  deriving DecidableEq

/-- Outcome of an operation that can raise `BufferClosedError`: either it
returns normally with the new object state, or the exception propagates,
with the object left in the carried state. -/
inductive CallResult (σ : Type) where
  | ok (s : σ)
  | closedErr (s : σ)
  deriving DecidableEq

/-- The object state after the operation, whether or not it raised. -/
def CallResult.state : CallResult σ → σ
  | .ok s => s
  | .closedErr s => s

/-- `message = self._formatter(message) if self._formatter is not None`:
the optional formatter configured at construction, applied on append. -/
def applyFormatter (fmt : Option (String → String)) (m : String) : String :=
  match fmt with
  | some f => f m
  | none => m

namespace LogBuffer

/-- `LogBuffer.__init__`: empty buffer, open. -/
def init : LBState := ⟨[], true⟩

/-- `LogBuffer.flush`: if the buffer is empty, return without calling the
sink; otherwise (under the lock) call `self._fn` once with the pending
messages joined by newline, then clear the buffer.  The second component is
the argument of the sink call, when one was made. -/
def flush (s : LBState) : LBState × Option String :=
  if s._buffer = [] then (s, none)
  else ({ s with _buffer := [] }, some (String.intercalate "\n" s._buffer))

/-- `LogBuffer.__call__`: apply the formatter, then (under the lock) raise
`BufferClosedError` if `self._open` is false, else append the message. -/
def call (fmt : Option (String → String)) (s : LBState) (message : String) :
    CallResult LBState :=
  let message := applyFormatter fmt message
  if s._open then .ok { s with _buffer := s._buffer ++ [message] }
  else .closedErr s

/-- `LogBuffer.close`: set `self._open` to false under the lock. -/
def close (s : LBState) : LBState := { s with _open := false }

/-- `LogBuffer.__call__` iterated over a list of messages (a sequence of
producer appends), stopping at the first raised `BufferClosedError`. -/
def callAll (fmt : Option (String → String)) (s : LBState) :
    List String → CallResult LBState
  | [] => .ok s
  | m :: ms =>
    match call fmt s m with
    | .ok s' => callAll fmt s' ms
    | .closedErr s' => .closedErr s'

/-- `LogBuffer.flush` in the run where the sink call `self._fn(...)` raises:
the exception propagates out of `flush` (`.error`, carrying the sink call
argument and the object state at propagation) and the line
`self._buffer = []` is never executed.  On an empty buffer the sink is not
called, so nothing can raise (`.ok`). -/
def flush_raising (s : LBState) : Except (String × LBState) LBState :=
  if s._buffer = [] then .ok s
  else .error (String.intercalate "\n" s._buffer, s)

end LogBuffer

/-- State of a `MaxSizeLogBuffer` instance: the inherited `_buffer` and
`_open`, plus the running byte counter `self._size` (a Python `int`,
modelled as `Int`) and the `self.SizeExceeded` event (set or clear). -/
structure MSState where
  _buffer : List String
  _open : Bool
  _size : Int
  SizeExceeded : Bool
  deriving DecidableEq

namespace MaxSizeLogBuffer

/-- `MaxSizeLogBuffer.__init__`: empty buffer, open, `_size = 0`, event clear. -/
def init : MSState := ⟨[], true, 0, false⟩

/-- `MaxSizeLogBuffer.__call__`: apply the formatter, then under the lock
raise `BufferClosedError` if closed (mutating nothing), else append the
message and add `len(message.encode('utf-8'))` to `self._size`; after
releasing the lock, if `self._size > self._max_size`, set `SizeExceeded`. -/
def call (fmt : Option (String → String)) (max_size : Int) (s : MSState)
    (message : String) : CallResult MSState :=
  let message := applyFormatter fmt message
  if s._open then
    let s1 : MSState := { s with
      _buffer := s._buffer ++ [message],
      _size := s._size + (message.utf8ByteSize : Int) }
    if s1._size > max_size then .ok { s1 with SizeExceeded := true } else .ok s1
  else .closedErr s

/-- `MaxSizeLogBuffer.flush`: if the buffer is empty, return without calling
the sink; otherwise (under the lock) call the sink once with the
newline-join, clear the buffer, reset `self._size` to 0 and clear
`SizeExceeded`. -/
def flush (s : MSState) : MSState × Option String :=
  if s._buffer = [] then (s, none)
  else ({ s with _buffer := [], _size := 0, SizeExceeded := false },
        some (String.intercalate "\n" s._buffer))

/-- `close` as inherited from `LogBuffer`: set `self._open` to false. -/
def close (s : MSState) : MSState := { s with _open := false }

/-- `MaxSizeLogBuffer.flush` in the run where the sink call raises: the
exception propagates (`.error`, carrying the sink argument and the state at
propagation); `self._buffer = []`, `self._size = 0` and
`self.SizeExceeded.clear()` are never executed. -/
def flush_raising (s : MSState) : Except (String × MSState) MSState :=
  if s._buffer = [] then .ok s
  else .error (String.intercalate "\n" s._buffer, s)

end MaxSizeLogBuffer

/-- An action another task (a producer, a closer, or another flush caller)
can perform at a suspension point of a driver loop.  A producer whose
append raises `BufferClosedError` handles the exception itself; the driver
is unaffected. -/
inductive EnvOp where
  | append (m : String)
  | close
  | flush
  deriving DecidableEq

namespace TimedLogBuffer

/-- One environment action on a `TimedLogBuffer`/`LogBuffer` state,
returning the new state and the sink calls it performed. -/
def applyEnv (fmt : Option (String → String)) (s : LBState) :
    EnvOp → LBState × List String
  | .append m => ((LogBuffer.call fmt s m).state, [])
  | .close => (LogBuffer.close s, [])
  | .flush => ((LogBuffer.flush s).1, (LogBuffer.flush s).2.toList)

/-- A sequence of environment actions, with the sink calls they perform. -/
def applyEnvs (fmt : Option (String → String)) (s : LBState) :
    List EnvOp → LBState × List String
  | [] => (s, [])
  | op :: ops =>
    ((applyEnvs fmt (applyEnv fmt s op).1 ops).1,
      (applyEnv fmt s op).2 ++ (applyEnvs fmt (applyEnv fmt s op).1 ops).2)

/-- Result of running `TimedLogBuffer.flush_loop` against a finite schedule:
either the loop observed `self._open` false, performed its one final
`flush()` and returned, or the schedule ran out with the loop still
spinning.  The list collects every sink call made during the run (by the
driver's flushes and by environment flushes). -/
inductive LoopResult where
  | finished (s : LBState) (calls : List String)
  | running (s : LBState) (calls : List String)
  deriving DecidableEq

/-- `TimedLogBuffer.flush_loop`:
`while self._open: await self.flush(); await asyncio.sleep(self._buffer_time)`
then one final `await self.flush()`.  Each schedule entry is the list of
environment actions interleaved during one `asyncio.sleep` suspension
(`flush` and `close` never suspend mid-body in this model, since their
critical sections contain no await). -/
def flush_loop (fmt : Option (String → String)) :
    LBState → List (List EnvOp) → LoopResult
  | s, [] =>
    if s._open then .running s []
    else .finished (LogBuffer.flush s).1 (LogBuffer.flush s).2.toList
  | s, env :: rest =>
    if s._open then
      let s1 := (LogBuffer.flush s).1
      let c1 := (LogBuffer.flush s).2.toList
      let s2 := (applyEnvs fmt s1 env).1
      let c2 := (applyEnvs fmt s1 env).2
      match flush_loop fmt s2 rest with
      | .finished s3 c3 => .finished s3 (c1 ++ c2 ++ c3)
      | .running s3 c3 => .running s3 (c1 ++ c2 ++ c3)
    else .finished (LogBuffer.flush s).1 (LogBuffer.flush s).2.toList

end TimedLogBuffer

namespace MaxSizeLogBuffer

/-- One environment action on a `MaxSizeLogBuffer` state. -/
def applyEnv (fmt : Option (String → String)) (max_size : Int) (s : MSState) :
    EnvOp → MSState × List String
  | .append m => ((call fmt max_size s m).state, [])
  | .close => (close s, [])
  | .flush => ((flush s).1, (flush s).2.toList)

/-- A sequence of environment actions on a `MaxSizeLogBuffer` state. -/
def applyEnvs (fmt : Option (String → String)) (max_size : Int) (s : MSState) :
    List EnvOp → MSState × List String
  | [] => (s, [])
  | op :: ops =>
    ((applyEnvs fmt max_size (applyEnv fmt max_size s op).1 ops).1,
      (applyEnv fmt max_size s op).2 ++
        (applyEnvs fmt max_size (applyEnv fmt max_size s op).1 ops).2)

/-- How the race `asyncio.wait_for(self.SizeExceeded.wait(), self._buffer_time)`
was won: the event became set before the timeout, or `asyncio.TimeoutError`
was raised and caught. -/
inductive WaitOutcome where
  | sizeExceededSet
  | timedOut
  deriving DecidableEq

/-- The synthetic marker message the driver appends on each wake path. -/
def markerString : WaitOutcome → String
  | .sizeExceededSet => "[flusher] maximum buffer size exceeded"
  | .timedOut => "[flusher] maximum buffer time exceeded"

/-- One iteration of the body of `MaxSizeLogBuffer.flush_loop`: the
environment acts during the `wait_for` race, then the driver appends the
synthetic marker for its wake path through the normal append path
(`await self(...)`), then calls `await self.flush()`.  If the marker append
raises `BufferClosedError`, neither wake path catches it (only
`asyncio.TimeoutError` is caught), so it propagates out of the loop:
`.error` with the state and the sink calls made so far. -/
def flush_loop_iter (fmt : Option (String → String)) (max_size : Int)
    (s : MSState) (env : List EnvOp) (o : WaitOutcome) :
    Except (MSState × List String) (MSState × List String) :=
  let s1 := (applyEnvs fmt max_size s env).1
  let c1 := (applyEnvs fmt max_size s env).2
  match call fmt max_size s1 (markerString o) with
  | .closedErr s2 => .error (s2, c1)
  | .ok s2 => .ok ((flush s2).1, c1 ++ (flush s2).2.toList)

/-- Result of running `MaxSizeLogBuffer.flush_loop` against a finite
schedule: `finished` = the loop observed `self._open` false, did its one
final unconditional `flush()` and returned; `errored` = a
`BufferClosedError` from a marker append escaped the loop (no final flush);
`running` = schedule exhausted while still open. -/
inductive MLoopResult where
  | finished (s : MSState) (calls : List String)
  | errored (s : MSState) (calls : List String)
  | running (s : MSState) (calls : List String)
  deriving DecidableEq

/-- `MaxSizeLogBuffer.flush_loop`: while `self._open`, race the
`SizeExceeded` event against the timeout (one schedule entry = the
environment actions during the wait plus which side won), append the
corresponding marker via the normal append path, and flush; on loop exit,
one final unconditional `flush()` with no marker. -/
def flush_loop (fmt : Option (String → String)) (max_size : Int) :
    MSState → List (List EnvOp × WaitOutcome) → MLoopResult
  | s, [] =>
    if s._open then .running s []
    else .finished (flush s).1 (flush s).2.toList
  | s, (env, o) :: rest =>
    if s._open then
      match flush_loop_iter fmt max_size s env o with
      | .error (s', c) => .errored s' c
      | .ok (s', c) =>
        match flush_loop fmt max_size s' rest with
        | .finished s'' c' => .finished s'' (c ++ c')
        | .errored s'' c' => .errored s'' (c ++ c')
        | .running s'' c' => .running s'' (c ++ c')
    else .finished (flush s).1 (flush s).2.toList

/-- The states a single `MaxSizeLogBuffer` instance can be in: the initial
state, closed over the operations of the class (append, whether it returns
or raises; flush; close). -/
inductive Reachable (fmt : Option (String → String)) (max_size : Int) :
    MSState → Prop
  | init : Reachable fmt max_size init
  | callOk {s s' : MSState} {m : String} : Reachable fmt max_size s →
      call fmt max_size s m = .ok s' → Reachable fmt max_size s'
  | callErr {s s' : MSState} {m : String} : Reachable fmt max_size s →
      call fmt max_size s m = .closedErr s' → Reachable fmt max_size s'
  | flushed {s : MSState} : Reachable fmt max_size s →
      Reachable fmt max_size (flush s).1
  | closed {s : MSState} : Reachable fmt max_size s →
      Reachable fmt max_size (close s)

end MaxSizeLogBuffer

/-!
`src/aiobuf/format.py`.  A Python `str` is a sequence of code points, so
`message.split('\n')` and `'\n'.join(...)` are embedded on the `List Char`
view of `String` (`String.data`/`String.mk`); `bytes` input is a
`ByteArray` and `message.decode('utf-8')` is UTF-8 decoding, with a raised
`UnicodeDecodeError` modelled as `none`.
-/

/-- `message.split('\n')` on the code-point view: Python's `str.split` with
an explicit separator keeps empty pieces, so the empty string splits to
`[""]`, and a trailing separator yields a trailing empty piece. -/
def pySplitNL : List Char → List (List Char)
  | [] => [[]]
  | c :: cs =>
    match pySplitNL cs with
    | [] => [[c]]
    | l :: ls => if c = '\n' then [] :: l :: ls else (c :: l) :: ls

/-- `'\n'.join(pieces)` on the code-point view. -/
def pyJoinNL : List (List Char) → List Char
  | [] => []
  | [l] => l
  | l :: ls => l ++ '\n' :: pyJoinNL ls

/-- The split / map / join pipeline of `format_message` on `str` input:
`'\n'.join(formatter(line) for line in message.split('\n'))`. -/
def format_message_str (s : String) (formatter : String → String) : String :=
  String.mk (pyJoinNL ((pySplitNL s.data).map (fun l => (formatter (String.mk l)).data)))

/-- `format_message(message, formatter)`: decode `bytes` input as UTF-8
(raising `UnicodeDecodeError`, i.e. `none`, on invalid bytes; `str` input
is left as is), split the text on newlines, apply `formatter` to each
line, and rejoin with newline. -/
def format_message (message : ByteArray ⊕ String) (formatter : String → String) :
    Option String :=
  match message with
  | .inl b =>
    if h : String.validateUTF8 b then
      some (format_message_str (String.fromUTF8 b h) formatter)
    else none
  | .inr s => some (format_message_str s formatter)

/-!
Fine structure of `flush` for the concurrency claim: the emptiness check
`if not self._buffer: return` runs BEFORE `async with self._flush_lock`,
and the body of the critical section never re-checks emptiness.  A flush
that runs without interleaving is exactly the check followed (when it
passes) by the critical section; a flush that passed its check and then
blocked on the lock runs the critical section on whatever state the
concurrent flush left behind.
-/

namespace LogBuffer

/-- The pre-lock emptiness check of `LogBuffer.flush`: `true` means the
buffer was observed non-empty and the flush proceeds to acquire the lock. -/
def flush_check (s : LBState) : Bool := !s._buffer.isEmpty

/-- The critical section of `LogBuffer.flush` (the body of
`async with self._flush_lock`): unconditionally call the sink once with
the newline-join of the buffer as it stands at lock acquisition, then
clear the buffer. -/
def flush_critical (s : LBState) : LBState × String :=
  ({ s with _buffer := [] }, String.intercalate "\n" s._buffer)

end LogBuffer

namespace MaxSizeLogBuffer

/-- The pre-lock emptiness check of `MaxSizeLogBuffer.flush`. -/
def flush_check (s : MSState) : Bool := !s._buffer.isEmpty

/-- The critical section of `MaxSizeLogBuffer.flush`: unconditionally call
the sink once with the newline-join of the buffer at lock acquisition,
clear the buffer, zero `_size`, clear `SizeExceeded`. -/
def flush_critical (s : MSState) : MSState × String :=
  ({ s with _buffer := [], _size := 0, SizeExceeded := false },
    String.intercalate "\n" s._buffer)

end MaxSizeLogBuffer

/-- The sum of the UTF-8 byte lengths (`len(m.encode('utf-8'))`) of the
messages in a buffer. -/
def sizeOfBuffer (l : List String) : Int :=
  (l.map fun m => (m.utf8ByteSize : Int)).sum

/-- The `MaxSizeLogBuffer` state invariant: the running counter equals the
summed byte size of the pending messages, and the `SizeExceeded` event can
only be set while at least one message is pending. -/
def MSInv (s : MSState) : Prop :=
  s._size = sizeOfBuffer s._buffer ∧ (s.SizeExceeded = true → s._buffer ≠ [])

/-! Helper lemmas. -/

theorem LogBuffer.callAll_none (msgs : List String) (buf : List String) :
    LogBuffer.callAll none ⟨buf, true⟩ msgs = .ok ⟨buf ++ msgs, true⟩ := by
  induction msgs generalizing buf with
  | nil => simp [LogBuffer.callAll]
  | cons m ms ih =>
    simp only [LogBuffer.callAll, LogBuffer.call, applyFormatter, if_pos]
    rw [ih]
    simp

theorem sizeOfBuffer_append_singleton (l : List String) (m : String) :
    sizeOfBuffer (l ++ [m]) = sizeOfBuffer l + (m.utf8ByteSize : Int) := by
  simp [sizeOfBuffer]

theorem sizeOfBuffer_nonneg (l : List String) : 0 ≤ sizeOfBuffer l := by
  refine List.sum_nonneg ?_
  intro x hx
  simp only [List.mem_map] at hx
  obtain ⟨m, -, rfl⟩ := hx
  exact Int.natCast_nonneg _

theorem MaxSizeLogBuffer.reachable_inv {fmt : Option (String → String)}
    {max_size : Int} {s : MSState}
    (h : MaxSizeLogBuffer.Reachable fmt max_size s) : MSInv s := by
  induction h with
  | init => exact ⟨by simp [MaxSizeLogBuffer.init, sizeOfBuffer], by simp [MaxSizeLogBuffer.init]⟩
  | @callOk s s' m hr hc ih =>
    simp only [MaxSizeLogBuffer.call] at hc
    split at hc
    · split at hc
      · cases hc
        exact ⟨by simp [sizeOfBuffer_append_singleton, ih.1], by simp⟩
      · cases hc
        exact ⟨by simp [sizeOfBuffer_append_singleton, ih.1], by simp⟩
    · cases hc
  | @callErr s s' m hr hc ih =>
    simp only [MaxSizeLogBuffer.call] at hc
    split at hc
    · split at hc <;> cases hc
    · cases hc
      exact ih
  | @flushed s hr ih =>
    by_cases hb : s._buffer = []
    · simpa [MaxSizeLogBuffer.flush, hb] using ih
    · exact ⟨by simp [MaxSizeLogBuffer.flush, hb, sizeOfBuffer],
        by simp [MaxSizeLogBuffer.flush, hb]⟩
  | @closed s hr ih =>
    exact ⟨ih.1, ih.2⟩

theorem LogBuffer.flush_lb_fst_buffer (s : LBState) :
    ((LogBuffer.flush s).1)._buffer = [] := by
  by_cases hb : s._buffer = [] <;> simp [LogBuffer.flush, hb]

theorem MaxSizeLogBuffer.flush_ms_fst_buffer (s : MSState) :
    ((MaxSizeLogBuffer.flush s).1)._buffer = [] := by
  by_cases hb : s._buffer = [] <;> simp [MaxSizeLogBuffer.flush, hb]

theorem MaxSizeLogBuffer.applyEnv_closed (fmt : Option (String → String))
    (max_size : Int) (s : MSState) (op : EnvOp) (h : s._open = false) :
    (MaxSizeLogBuffer.applyEnv fmt max_size s op).1._open = false := by
  cases op with
  | append m =>
    simp [MaxSizeLogBuffer.applyEnv, MaxSizeLogBuffer.call, CallResult.state, h]
  | close => simp [MaxSizeLogBuffer.applyEnv, MaxSizeLogBuffer.close]
  | flush =>
    by_cases hb : s._buffer = [] <;>
      simp [MaxSizeLogBuffer.applyEnv, MaxSizeLogBuffer.flush, hb, h]

theorem MaxSizeLogBuffer.applyEnvs_closed (fmt : Option (String → String))
    (max_size : Int) (s : MSState) (env : List EnvOp) (h : s._open = false) :
    (MaxSizeLogBuffer.applyEnvs fmt max_size s env).1._open = false := by
  induction env generalizing s with
  | nil => simpa [MaxSizeLogBuffer.applyEnvs] using h
  | cons op ops ih =>
    simp only [MaxSizeLogBuffer.applyEnvs]
    exact ih _ (MaxSizeLogBuffer.applyEnv_closed fmt max_size s op h)

/-- Once `close` runs at a suspension point, the buffer is closed when the
driver resumes: no environment action reopens a buffer. -/
theorem MaxSizeLogBuffer.applyEnvs_close_mem (fmt : Option (String → String))
    (max_size : Int) (s : MSState) (env : List EnvOp)
    (h : EnvOp.close ∈ env) :
    (MaxSizeLogBuffer.applyEnvs fmt max_size s env).1._open = false := by
  induction env generalizing s with
  | nil => cases h
  | cons op ops ih =>
    simp only [MaxSizeLogBuffer.applyEnvs]
    rcases List.mem_cons.mp h with h1 | h2
    · subst h1
      exact MaxSizeLogBuffer.applyEnvs_closed fmt max_size _ ops
        (by simp [MaxSizeLogBuffer.applyEnv, MaxSizeLogBuffer.close])
    · exact ih _ h2

theorem intercalate_go_concat (sep m : String) (as : List String)
    (acc : String) :
    String.intercalate.go acc sep (as ++ [m]) =
      String.intercalate.go acc sep as ++ sep ++ m := by
  induction as generalizing acc with
  | nil => rfl
  | cons a as ih =>
    show String.intercalate.go (acc ++ sep ++ a) sep (as ++ [m]) =
      String.intercalate.go (acc ++ sep ++ a) sep as ++ sep ++ m
    exact ih (acc ++ sep ++ a)

/-- Joining a list that ends in `m` yields a string that ends in `m`. -/
theorem intercalate_concat_suffix (sep m : String) (as : List String) :
    ∃ pre, String.intercalate sep (as ++ [m]) = pre ++ m := by
  cases as with
  | nil =>
    exact ⟨"", by simp [String.intercalate, String.intercalate.go]⟩
  | cons a as =>
    refine ⟨String.intercalate sep (a :: as) ++ sep, ?_⟩
    simp only [String.intercalate, List.cons_append]
    rw [intercalate_go_concat]

/-! Claim theorems. -/

/-- C1: appending any nonempty sequence of messages `msgs` to a fresh open
buffer succeeds and stores exactly `msgs`; a subsequent flush invokes the
sink exactly once, with the single string `String.intercalate "\n" msgs`
(the messages joined by newline in append order), and afterwards the
pending sequence is empty. -/
theorem c1_flush_delivers_joined_batch (msgs : List String) (h : msgs ≠ []) :
    LogBuffer.callAll none LogBuffer.init msgs = .ok ⟨msgs, true⟩ ∧
    LogBuffer.flush ⟨msgs, true⟩ =
      (⟨[], true⟩, some (String.intercalate "\n" msgs)) := by
  constructor
  · simpa using LogBuffer.callAll_none msgs []
  · simp [LogBuffer.flush, h]

theorem c1_witness :
    LogBuffer.callAll none LogBuffer.init ["a", "b"] = .ok ⟨["a", "b"], true⟩ ∧
    LogBuffer.flush ⟨["a", "b"], true⟩ = (⟨[], true⟩, some "a\nb") := by
  have h := c1_flush_delivers_joined_batch ["a", "b"] (by simp)
  exact ⟨h.1, h.2⟩

/-- C3: on any state with `_open = false`, an append raises
`BufferClosedError` in both the base and the size-aware variant, and the
state carried out of the raise is the input state itself: the pending
sequence, and in the size-aware variant the byte counter `_size` (and the
`SizeExceeded` event), are unchanged. -/
theorem c3_closed_append_rejected (fmt : Option (String → String))
    (max_size : Int) (sL : LBState) (sM : MSState) (m : String)
    (hL : sL._open = false) (hM : sM._open = false) :
    LogBuffer.call fmt sL m = .closedErr sL ∧
    MaxSizeLogBuffer.call fmt max_size sM m = .closedErr sM := by
  constructor
  · simp [LogBuffer.call, hL]
  · simp [MaxSizeLogBuffer.call, hM]

theorem c3_witness :
    LogBuffer.call none ⟨["x"], false⟩ "y" = .closedErr ⟨["x"], false⟩ ∧
    MaxSizeLogBuffer.call none 120 ⟨["x"], false, 1, false⟩ "y" =
      .closedErr ⟨["x"], false, 1, false⟩ :=
  c3_closed_append_rejected none 120 ⟨["x"], false⟩ ⟨["x"], false, 1, false⟩
    "y" rfl rfl

/-- C8: when the sink raises during a flush of a nonempty buffer, the error
propagates out of `flush` (it is not caught by the buffer core) and the
object state at propagation is the input state itself: `_buffer` (and, in
the size-aware variant, `_size` and `SizeExceeded`) are unchanged, and a
later successful flush of that unchanged state delivers the very same
batch. -/
theorem c8_sink_error_propagates_state_kept (sL : LBState) (sM : MSState)
    (hL : sL._buffer ≠ []) (hM : sM._buffer ≠ []) :
    LogBuffer.flush_raising sL =
      .error (String.intercalate "\n" sL._buffer, sL) ∧
    (LogBuffer.flush sL).2 = some (String.intercalate "\n" sL._buffer) ∧
    MaxSizeLogBuffer.flush_raising sM =
      .error (String.intercalate "\n" sM._buffer, sM) ∧
    (MaxSizeLogBuffer.flush sM).2 = some (String.intercalate "\n" sM._buffer) := by
  refine ⟨?_, ?_, ?_, ?_⟩ <;>
    simp [LogBuffer.flush_raising, LogBuffer.flush,
      MaxSizeLogBuffer.flush_raising, MaxSizeLogBuffer.flush, hL, hM]

theorem c8_witness :
    LogBuffer.flush_raising ⟨["a"], true⟩ =
      .error (String.intercalate "\n" ["a"], ⟨["a"], true⟩) ∧
    (LogBuffer.flush ⟨["a"], true⟩).2 = some (String.intercalate "\n" ["a"]) ∧
    MaxSizeLogBuffer.flush_raising ⟨["a"], true, 1, false⟩ =
      .error (String.intercalate "\n" ["a"], ⟨["a"], true, 1, false⟩) ∧
    (MaxSizeLogBuffer.flush ⟨["a"], true, 1, false⟩).2 =
      some (String.intercalate "\n" ["a"]) :=
  c8_sink_error_propagates_state_kept ⟨["a"], true⟩ ⟨["a"], true, 1, false⟩
    (by simp) (by simp)

/-- C9: flushing a buffer whose pending sequence is empty performs no sink
call and leaves the state unchanged, in both variants. -/
theorem c9_empty_flush_noop (sL : LBState) (sM : MSState)
    (hL : sL._buffer = []) (hM : sM._buffer = []) :
    LogBuffer.flush sL = (sL, none) ∧ MaxSizeLogBuffer.flush sM = (sM, none) := by
  constructor
  · simp [LogBuffer.flush, hL]
  · simp [MaxSizeLogBuffer.flush, hM]

theorem c9_witness :
    LogBuffer.flush LogBuffer.init = (LogBuffer.init, none) ∧
    MaxSizeLogBuffer.flush MaxSizeLogBuffer.init = (MaxSizeLogBuffer.init, none) :=
  c9_empty_flush_noop LogBuffer.init MaxSizeLogBuffer.init rfl rfl

/-- C2 counterexample: close occurring while the size-aware driver is
waiting on the size-signal/timeout race makes the loop raise instead of
running to completion.  Concretely: the buffer holds `"a"` and is open; the
driver starts an iteration, the environment runs `close()` during the
`wait_for` race, the race ends in a timeout; the driver's synthetic
"maximum buffer time exceeded" append then raises `BufferClosedError`,
which no handler in `flush_loop` catches, so the loop ends `errored`: the
final flush never runs, the sink is never called, and the message `"a"`
pending at close is not delivered. -/
theorem c2_counterexample :
    MaxSizeLogBuffer.flush_loop none 120 ⟨["a"], true, 1, false⟩
      [([EnvOp.close], MaxSizeLogBuffer.WaitOutcome.timedOut)] =
      MaxSizeLogBuffer.MLoopResult.errored ⟨["a"], false, 1, false⟩ [] ∧
    (⟨["a"], false, 1, false⟩ : MSState)._buffer = ["a"] := by
  constructor
  · rfl
  · rfl

/-- C2 (amended): for both drivers, when the loop condition observes the
buffer closed, the loop performs exactly one more flush — its result is
precisely that of a single `flush` on the state at that point, delivering
every pending message in one sink call and leaving the buffer empty; in
the size-aware driver this final flush appends no synthetic marker.  But
if `close` lands while the size-aware driver is waiting on the
size-signal/timeout race, the subsequent synthetic marker append raises
`BufferClosedError`, which escapes the loop: the run ends `errored` on the
post-wait state, with only the sink calls the environment itself made, and
the final flush never executes. -/
theorem c2_drain_on_close_vs_closed_wait (fmt : Option (String → String))
    (max_size : Int) (sL : LBState) (sM sO : MSState)
    (schedL : List (List EnvOp)) (schedM : List (List EnvOp × MaxSizeLogBuffer.WaitOutcome))
    (env : List EnvOp) (o : MaxSizeLogBuffer.WaitOutcome)
    (rest : List (List EnvOp × MaxSizeLogBuffer.WaitOutcome))
    (hL : sL._open = false) (hM : sM._open = false)
    (hO : sO._open = true) (hclose : EnvOp.close ∈ env) :
    TimedLogBuffer.flush_loop fmt sL schedL =
      TimedLogBuffer.LoopResult.finished (LogBuffer.flush sL).1
        (LogBuffer.flush sL).2.toList ∧
    ((LogBuffer.flush sL).1)._buffer = [] ∧
    MaxSizeLogBuffer.flush_loop fmt max_size sM schedM =
      MaxSizeLogBuffer.MLoopResult.finished (MaxSizeLogBuffer.flush sM).1
        (MaxSizeLogBuffer.flush sM).2.toList ∧
    ((MaxSizeLogBuffer.flush sM).1)._buffer = [] ∧
    MaxSizeLogBuffer.flush_loop fmt max_size sO ((env, o) :: rest) =
      MaxSizeLogBuffer.MLoopResult.errored (MaxSizeLogBuffer.applyEnvs fmt max_size sO env).1
        (MaxSizeLogBuffer.applyEnvs fmt max_size sO env).2 := by
  refine ⟨?_, LogBuffer.flush_lb_fst_buffer sL, ?_,
    MaxSizeLogBuffer.flush_ms_fst_buffer sM, ?_⟩
  · cases schedL <;> simp [TimedLogBuffer.flush_loop, hL]
  · cases schedM with
    | nil => simp [MaxSizeLogBuffer.flush_loop, hM]
    | cons it rest' =>
      obtain ⟨env', o'⟩ := it
      simp [MaxSizeLogBuffer.flush_loop, hM]
  · have hclosed := MaxSizeLogBuffer.applyEnvs_close_mem fmt max_size sO env hclose
    simp only [MaxSizeLogBuffer.flush_loop, hO, if_true]
    simp [MaxSizeLogBuffer.flush_loop_iter, MaxSizeLogBuffer.call, hclosed]

theorem c2_witness :
    TimedLogBuffer.flush_loop none ⟨["a"], false⟩ [] =
      TimedLogBuffer.LoopResult.finished (LogBuffer.flush ⟨["a"], false⟩).1
        (LogBuffer.flush ⟨["a"], false⟩).2.toList ∧
    ((LogBuffer.flush ⟨["a"], false⟩).1)._buffer = [] ∧
    MaxSizeLogBuffer.flush_loop none 120 ⟨["b"], false, 1, false⟩ [] =
      MaxSizeLogBuffer.MLoopResult.finished (MaxSizeLogBuffer.flush ⟨["b"], false, 1, false⟩).1
        (MaxSizeLogBuffer.flush ⟨["b"], false, 1, false⟩).2.toList ∧
    ((MaxSizeLogBuffer.flush ⟨["b"], false, 1, false⟩).1)._buffer = [] ∧
    MaxSizeLogBuffer.flush_loop none 120 ⟨[], true, 0, false⟩
      [([EnvOp.close], MaxSizeLogBuffer.WaitOutcome.timedOut)] =
      MaxSizeLogBuffer.MLoopResult.errored
        (MaxSizeLogBuffer.applyEnvs none 120 ⟨[], true, 0, false⟩ [EnvOp.close]).1
        (MaxSizeLogBuffer.applyEnvs none 120 ⟨[], true, 0, false⟩ [EnvOp.close]).2 :=
  c2_drain_on_close_vs_closed_wait none 120 ⟨["a"], false⟩
    ⟨["b"], false, 1, false⟩ ⟨[], true, 0, false⟩ [] [] [EnvOp.close]
    MaxSizeLogBuffer.WaitOutcome.timedOut [] rfl rfl rfl (by simp)

/-- C4: in every state a `MaxSizeLogBuffer` instance can reach (from
construction, under any sequence of appends — successful or raising —
flushes and closes), the running counter `_size` is non-negative and equals
the sum of the UTF-8 byte lengths of the strings currently in `_buffer`. -/
theorem c4_size_tracks_pending (fmt : Option (String → String))
    (max_size : Int) (s : MSState)
    (h : MaxSizeLogBuffer.Reachable fmt max_size s) :
    0 ≤ s._size ∧ s._size = sizeOfBuffer s._buffer := by
  have h2 := MaxSizeLogBuffer.reachable_inv h
  exact ⟨h2.1 ▸ sizeOfBuffer_nonneg s._buffer, h2.1⟩

theorem c4_witness :
    0 ≤ MaxSizeLogBuffer.init._size ∧
    MaxSizeLogBuffer.init._size = sizeOfBuffer MaxSizeLogBuffer.init._buffer :=
  c4_size_tracks_pending none 120 MaxSizeLogBuffer.init
    MaxSizeLogBuffer.Reachable.init

/-- C5: on every reachable state of the size-aware variant, after `flush`
returns — whether or not it delivered a batch — `_size` is exactly 0 and
the `SizeExceeded` event is clear; moreover the event is cleared exactly by
a draining flush: if the event was set, this flush did deliver a batch, a
(successful or raising) append never clears a set event, and `close` leaves
the event untouched. -/
theorem c5_flush_zeroes_size_and_signal (fmt : Option (String → String))
    (max_size : Int) (s : MSState)
    (h : MaxSizeLogBuffer.Reachable fmt max_size s) :
    (MaxSizeLogBuffer.flush s).1._size = 0 ∧
    (MaxSizeLogBuffer.flush s).1.SizeExceeded = false ∧
    (s.SizeExceeded = true → (MaxSizeLogBuffer.flush s).2 ≠ none) ∧
    (∀ m, s.SizeExceeded = true →
      ((MaxSizeLogBuffer.call fmt max_size s m).state).SizeExceeded = true) ∧
    (MaxSizeLogBuffer.close s).SizeExceeded = s.SizeExceeded := by
  have h2 := MaxSizeLogBuffer.reachable_inv h
  have hcall : ∀ m, s.SizeExceeded = true →
      ((MaxSizeLogBuffer.call fmt max_size s m).state).SizeExceeded = true := by
    intro m hs
    simp only [MaxSizeLogBuffer.call]
    split
    · split <;> simp [CallResult.state, hs]
    · simpa [CallResult.state] using hs
  by_cases hb : s._buffer = []
  · have hsig : s.SizeExceeded = false := by
      cases hs : s.SizeExceeded
      · rfl
      · exact absurd hb (h2.2 hs)
    have hz : s._size = 0 := by
      rw [h2.1, hb]; rfl
    refine ⟨?_, ?_, ?_, hcall, rfl⟩ <;>
      simp [MaxSizeLogBuffer.flush, hb, hz, hsig]
  · refine ⟨?_, ?_, ?_, hcall, rfl⟩ <;> simp [MaxSizeLogBuffer.flush, hb]

theorem c5_witness :
    (MaxSizeLogBuffer.flush ⟨["abc"], true, 3, true⟩).1._size = 0 ∧
    (MaxSizeLogBuffer.flush ⟨["abc"], true, 3, true⟩).1.SizeExceeded = false ∧
    (MSState.SizeExceeded ⟨["abc"], true, 3, true⟩ = true →
      (MaxSizeLogBuffer.flush ⟨["abc"], true, 3, true⟩).2 ≠ none) ∧
    (MSState.SizeExceeded ⟨["abc"], true, 3, true⟩ = true →
      ((MaxSizeLogBuffer.call none 1 ⟨["abc"], true, 3, true⟩ "z").state).SizeExceeded
        = true) ∧
    (MaxSizeLogBuffer.close ⟨["abc"], true, 3, true⟩).SizeExceeded =
      MSState.SizeExceeded ⟨["abc"], true, 3, true⟩ := by
  have hreach : MaxSizeLogBuffer.Reachable none 1 ⟨["abc"], true, 3, true⟩ :=
    @MaxSizeLogBuffer.Reachable.callOk none 1 MaxSizeLogBuffer.init
      ⟨["abc"], true, 3, true⟩ "abc" MaxSizeLogBuffer.Reachable.init (by decide)
  have T := c5_flush_zeroes_size_and_signal none 1 ⟨["abc"], true, 3, true⟩ hreach
  exact ⟨T.1, T.2.1, T.2.2.1, T.2.2.2.1 "z", T.2.2.2.2⟩

/-- C6: one iteration of the size-aware driver's loop body, on a buffer
that is still open after the wait (no formatter configured): the driver
appends, through the normal append path, the synthetic message
"[flusher] maximum buffer size exceeded" when the race was won by the
`SizeExceeded` signal and "[flusher] maximum buffer time exceeded" on a
timeout, then flushes.  The iteration succeeds, the delivered batch is the
post-wait pending messages followed by the marker, joined by newline, so
the marker is the batch's last message and the batch string ends with the
marker line. -/
theorem c6_driver_batch_ends_with_marker (max_size : Int) (s : MSState)
    (env : List EnvOp) (o : MaxSizeLogBuffer.WaitOutcome)
    (h : ((MaxSizeLogBuffer.applyEnvs none max_size s env).1)._open = true) :
    MaxSizeLogBuffer.flush_loop_iter none max_size s env o =
      .ok (⟨[], true, 0, false⟩,
        (MaxSizeLogBuffer.applyEnvs none max_size s env).2 ++
          [String.intercalate "\n"
            (((MaxSizeLogBuffer.applyEnvs none max_size s env).1)._buffer ++
              [MaxSizeLogBuffer.markerString o])]) ∧
    (((MaxSizeLogBuffer.applyEnvs none max_size s env).1)._buffer ++
        [MaxSizeLogBuffer.markerString o]).getLast? =
      some (MaxSizeLogBuffer.markerString o) ∧
    (MaxSizeLogBuffer.markerString o).data <:+
      (String.intercalate "\n"
        (((MaxSizeLogBuffer.applyEnvs none max_size s env).1)._buffer ++
          [MaxSizeLogBuffer.markerString o])).data ∧
    MaxSizeLogBuffer.markerString MaxSizeLogBuffer.WaitOutcome.sizeExceededSet =
      "[flusher] maximum buffer size exceeded" ∧
    MaxSizeLogBuffer.markerString MaxSizeLogBuffer.WaitOutcome.timedOut =
      "[flusher] maximum buffer time exceeded" := by
  refine ⟨?_, List.getLast?_concat _, ?_, rfl, rfl⟩
  · by_cases hsz : ((MaxSizeLogBuffer.applyEnvs none max_size s env).1)._size +
        ((MaxSizeLogBuffer.markerString o).utf8ByteSize : Int) > max_size
    · simp [MaxSizeLogBuffer.flush_loop_iter, MaxSizeLogBuffer.call,
        applyFormatter, h, hsz, MaxSizeLogBuffer.flush]
    · simp [MaxSizeLogBuffer.flush_loop_iter, MaxSizeLogBuffer.call,
        applyFormatter, h, hsz, MaxSizeLogBuffer.flush]
  · obtain ⟨pre, hpre⟩ := intercalate_concat_suffix "\n"
      (MaxSizeLogBuffer.markerString o)
      (((MaxSizeLogBuffer.applyEnvs none max_size s env).1)._buffer)
    rw [hpre]
    exact ⟨pre.data, by simp⟩

theorem c6_witness :
    MaxSizeLogBuffer.flush_loop_iter none 10 MaxSizeLogBuffer.init
      [EnvOp.append "123456789012"] MaxSizeLogBuffer.WaitOutcome.sizeExceededSet =
      .ok (⟨[], true, 0, false⟩,
        (MaxSizeLogBuffer.applyEnvs none 10 MaxSizeLogBuffer.init
          [EnvOp.append "123456789012"]).2 ++
          [String.intercalate "\n"
            (((MaxSizeLogBuffer.applyEnvs none 10 MaxSizeLogBuffer.init
                [EnvOp.append "123456789012"]).1)._buffer ++
              [MaxSizeLogBuffer.markerString
                MaxSizeLogBuffer.WaitOutcome.sizeExceededSet])]) ∧
    (((MaxSizeLogBuffer.applyEnvs none 10 MaxSizeLogBuffer.init
        [EnvOp.append "123456789012"]).1)._buffer ++
      [MaxSizeLogBuffer.markerString
        MaxSizeLogBuffer.WaitOutcome.sizeExceededSet]).getLast? =
      some (MaxSizeLogBuffer.markerString
        MaxSizeLogBuffer.WaitOutcome.sizeExceededSet) ∧
    (MaxSizeLogBuffer.markerString
        MaxSizeLogBuffer.WaitOutcome.sizeExceededSet).data <:+
      (String.intercalate "\n"
        (((MaxSizeLogBuffer.applyEnvs none 10 MaxSizeLogBuffer.init
            [EnvOp.append "123456789012"]).1)._buffer ++
          [MaxSizeLogBuffer.markerString
            MaxSizeLogBuffer.WaitOutcome.sizeExceededSet])).data ∧
    MaxSizeLogBuffer.markerString MaxSizeLogBuffer.WaitOutcome.sizeExceededSet =
      "[flusher] maximum buffer size exceeded" ∧
    MaxSizeLogBuffer.markerString MaxSizeLogBuffer.WaitOutcome.timedOut =
      "[flusher] maximum buffer time exceeded" :=
  c6_driver_batch_ends_with_marker 10 MaxSizeLogBuffer.init
    [EnvOp.append "123456789012"] MaxSizeLogBuffer.WaitOutcome.sizeExceededSet
    (by decide)

/-- C7 counterexample: `flush` does not re-check emptiness after acquiring
the lock.  State `⟨["a"], true⟩`: a second flush's pre-lock check passes
(the buffer is non-empty), a concurrent first flush then drains the buffer
(one sink call `"a"`), and when the blocked flush enters the critical
section on the drained state it calls the sink with `""` — a sink call,
not the no-op the claim asserts. -/
theorem c7_counterexample :
    LogBuffer.flush_check ⟨["a"], true⟩ = true ∧
    LogBuffer.flush ⟨["a"], true⟩ = (⟨[], true⟩, some "a") ∧
    LogBuffer.flush_critical ⟨[], true⟩ = (⟨[], true⟩, "") := by
  refine ⟨rfl, by decide, rfl⟩

/-- C7 (amended): flushes serialize on `self._flush_lock`, so at most one
flush critical section executes at a time; but the emptiness check runs
before the lock is acquired and is not repeated inside the critical
section.  An uninterleaved flush is exactly check-then-critical: when the
check fails the flush is a no-op (no sink call, state unchanged), when it
passes the critical section runs; and the critical section always makes
exactly one sink call with the newline-join of the buffer as it stands at
lock acquisition — the empty string, not a no-op, if a concurrent flush
drained the buffer between check and acquisition.  Both variants. -/
theorem c7_check_before_lock_no_recheck (sL : LBState) (sM : MSState) :
    (LogBuffer.flush_check sL = false → LogBuffer.flush sL = (sL, none)) ∧
    (LogBuffer.flush_check sL = true →
      LogBuffer.flush sL =
        ((LogBuffer.flush_critical sL).1, some (LogBuffer.flush_critical sL).2)) ∧
    (LogBuffer.flush_critical sL).2 = String.intercalate "\n" sL._buffer ∧
    ((LogBuffer.flush_critical sL).1)._buffer = [] ∧
    (MaxSizeLogBuffer.flush_check sM = false →
      MaxSizeLogBuffer.flush sM = (sM, none)) ∧
    (MaxSizeLogBuffer.flush_check sM = true →
      MaxSizeLogBuffer.flush sM = ((MaxSizeLogBuffer.flush_critical sM).1,
        some (MaxSizeLogBuffer.flush_critical sM).2)) ∧
    (MaxSizeLogBuffer.flush_critical sM).2 =
      String.intercalate "\n" sM._buffer ∧
    ((MaxSizeLogBuffer.flush_critical sM).1)._buffer = [] := by
  refine ⟨?_, ?_, rfl, rfl, ?_, ?_, rfl, rfl⟩
  · intro h
    simp only [LogBuffer.flush_check, Bool.not_eq_false', List.isEmpty_iff] at h
    simp [LogBuffer.flush, h]
  · intro h
    simp only [LogBuffer.flush_check, Bool.not_eq_true', List.isEmpty_eq_false] at h
    simp [LogBuffer.flush, LogBuffer.flush_critical, h]
  · intro h
    simp only [MaxSizeLogBuffer.flush_check, Bool.not_eq_false', List.isEmpty_iff] at h
    simp [MaxSizeLogBuffer.flush, h]
  · intro h
    simp only [MaxSizeLogBuffer.flush_check, Bool.not_eq_true', List.isEmpty_eq_false] at h
    simp [MaxSizeLogBuffer.flush, MaxSizeLogBuffer.flush_critical, h]

theorem c7_witness :
    LogBuffer.flush ⟨[], true⟩ = (⟨[], true⟩, none) ∧
    LogBuffer.flush ⟨["a"], true⟩ =
      ((LogBuffer.flush_critical ⟨["a"], true⟩).1,
        some (LogBuffer.flush_critical ⟨["a"], true⟩).2) ∧
    MaxSizeLogBuffer.flush ⟨[], true, 0, false⟩ = (⟨[], true, 0, false⟩, none) ∧
    MaxSizeLogBuffer.flush ⟨["a"], true, 1, true⟩ =
      ((MaxSizeLogBuffer.flush_critical ⟨["a"], true, 1, true⟩).1,
        some (MaxSizeLogBuffer.flush_critical ⟨["a"], true, 1, true⟩).2) := by
  have T1 := c7_check_before_lock_no_recheck ⟨[], true⟩ ⟨[], true, 0, false⟩
  have T2 := c7_check_before_lock_no_recheck ⟨["a"], true⟩ ⟨["a"], true, 1, true⟩
  exact ⟨T1.1 rfl, T2.2.1 rfl, T1.2.2.2.2.1 rfl, T2.2.2.2.2.2.1 rfl⟩

theorem pySplitNL_ne_nil (l : List Char) : pySplitNL l ≠ [] := by
  cases l with
  | nil => simp [pySplitNL]
  | cons c cs =>
    simp only [pySplitNL]
    cases pySplitNL cs with
    | nil => simp
    | cons p ps => by_cases hc : c = '\n' <;> simp [hc]

/-- Splitting on newlines and rejoining with newline is the identity on
the code-point sequence. -/
theorem pyJoinNL_pySplitNL (l : List Char) : pyJoinNL (pySplitNL l) = l := by
  induction l with
  | nil => rfl
  | cons c cs ih =>
    rcases hsplit : pySplitNL cs with _ | ⟨p, ps⟩
    · exact absurd hsplit (pySplitNL_ne_nil cs)
    · rw [hsplit] at ih
      by_cases hc : c = '\n'
      · subst hc
        simp only [pySplitNL, hsplit, if_pos rfl]
        simpa [pyJoinNL] using congrArg (fun t => '\n' :: t) ih
      · simp only [pySplitNL, hsplit, if_neg hc]
        cases ps with
        | nil => simpa [pyJoinNL] using congrArg (fun t => c :: t) ih
        | cons q qs =>
          simpa [pyJoinNL, List.cons_append] using congrArg (fun t => c :: t) ih

/-- C10: the formatter adapter decodes `bytes` input as UTF-8 and then runs
the same per-line pipeline as on text input (raising on invalid bytes),
leaves `str` input undecoded, splits on newline boundaries, applies the
per-line function to each line and rejoins with newline; with the identity
per-line function it returns every text input unchanged (split followed by
newline-join is a round trip). -/
theorem c10_format_message_pipeline (f : String → String) (s : String)
    (b : ByteArray) :
    format_message (.inr s) f =
      some (String.mk (pyJoinNL ((pySplitNL s.data).map
        (fun l => (f (String.mk l)).data)))) ∧
    format_message (.inl b) f =
      (String.fromUTF8? b).map (fun t => format_message_str t f) ∧
    format_message (.inr s) id = some s := by
  refine ⟨rfl, ?_, ?_⟩
  · simp only [format_message, String.fromUTF8?]
    split <;> simp
  · simp only [format_message, format_message_str]
    have h1 : (pySplitNL s.data).map (fun l => (id (String.mk l)).data) =
        pySplitNL s.data := by
      simp
    rw [h1, pyJoinNL_pySplitNL]
